import Mathlib

/-!
Verification development for the CW (Morse) decoder core.

Shallow embedding conventions:
* Go `float64` values are modelled as exact rationals (`ℚ`).
* Go `int`/`int64` counters are modelled as `ℤ` (or `ℕ` for buffer indices).
* `math.Sqrt` is not rational-valued, so every definition that needs it
  takes an explicit square-root function `sq : ℚ → ℚ` as a parameter.
  Concrete instances use `sqrtQ`, which is exact on perfect squares, and
  every concrete input below is chosen so that the variances involved are
  perfect squares, where `math.Sqrt` is exact in the original program too.
* `math.Atan2` and `math.Pi` in the AFC are likewise taken as parameters;
  the claims about the AFC are control-flow and clamping facts that hold
  for every value of these functions.
* The language model (`LoadModel.go`) is loaded from a JSON file and only
  ever consulted through `GetTransitionScore`; it is modelled as an
  abstract scoring function `String → String → ℚ`.
-/

namespace CW

set_option maxHeartbeats 1000000

/-- Exact square root on rationals whose numerator and denominator are
perfect squares; used to instantiate `math.Sqrt` at concrete inputs. -/
def sqrtQ (q : ℚ) : ℚ := (Nat.sqrt q.num.toNat : ℚ) / (Nat.sqrt q.den : ℚ)

/-- Ascending sort, modelling Go `sort.Float64s` on a copied slice. -/
def sortQ (l : List ℚ) : List ℚ := l.insertionSort (· ≤ ·)

/-! ## StatisticalAnalyzer (src/unnamed/part_004) -/

/-- The `SignalStats` from part_004: mean, standard deviation, sample count. -/
structure SignalStats where
  Mean : ℚ
  StdDev : ℚ
  Count : ℕ
deriving DecidableEq

/-- The `StatsResult` from part_004. -/
structure StatsResult where
  OptimalThreshold : ℚ
  DitStats : SignalStats
  DahStats : SignalStats
  Confidence : ℚ
  Valid : Bool
deriving DecidableEq

/-- The `StatisticalAnalyzer` from part_004: fixed-size circular buffer. -/
structure StatisticalAnalyzer where
  windowSize : ℕ
  history : List ℚ
  cursor : ℕ
  full : Bool
deriving DecidableEq

/-- The `NewAnalyzer(size)`: zeroed history of length `size`. -/
def newAnalyzer (size : ℕ) : StatisticalAnalyzer :=
  { windowSize := size, history := List.replicate size 0, cursor := 0, full := false }

/-- The `StatisticalAnalyzer.AddObservation`. -/
def addObservation (s : StatisticalAnalyzer) (duration : ℚ) : StatisticalAnalyzer :=
  let history := s.history.set s.cursor duration
  let cursor := (s.cursor + 1) % s.windowSize
  { s with history := history, cursor := cursor, full := s.full || (cursor == 0) }

/-- The `calculateStats` from part_004, with the square root as a parameter. -/
def calculateStats (sq : ℚ → ℚ) (data : List ℚ) : SignalStats :=
  if data.length = 0 then { Mean := 0, StdDev := 0, Count := 0 }
  else
    let mean := data.sum / (data.length : ℚ)
    let varianceSum := (data.map (fun v => (v - mean) ^ 2)).sum
    { Mean := mean, StdDev := sq (varianceSum / (data.length : ℚ)), Count := data.length }

/-- The max-gap scan of `Analyze`: the Go `for` loop over
`i ∈ [startIndex, endIndex)` tracking the largest `data[i+1] - data[i]`
(strictly larger wins) together with its index (initialised to `-1`). -/
def maxGapScan (data : List ℚ) (startIndex endIndex : ℕ) : ℚ × ℤ :=
  (List.range' startIndex (endIndex - startIndex)).foldl
    (fun acc i =>
      let gap := data.getD (i + 1) 0 - data.getD i 0
      if gap > acc.1 then (gap, (i : ℤ)) else acc)
    (0, -1)

/-- The invalid result `StatsResult{Valid: false}` (all fields zero). -/
def invalidStats : StatsResult :=
  { OptimalThreshold := 0, DitStats := { Mean := 0, StdDev := 0, Count := 0 },
    DahStats := { Mean := 0, StdDev := 0, Count := 0 }, Confidence := 0, Valid := false }

/-- The average coefficient of variation computed inside `Analyze`
from the dit and dah statistics. -/
def avgCVOf (ditStats dahStats : SignalStats) : ℚ :=
  (ditStats.StdDev / ditStats.Mean + dahStats.StdDev / dahStats.Mean) / 2

/-- The max-gap search of `Analyze` over the central half of the sorted
window: `int(n*0.25)` and `int(n*0.75)` are exact dyadic computations in
Go, so they are `n / 4` and `3 * n / 4` here. -/
def analyzeSplit (data : List ℚ) (n : ℕ) : ℚ × ℤ :=
  maxGapScan data (n / 4) (3 * n / 4)

/-- The valid-case result record of `Analyze`, split at `splitIndex`. -/
def analyzeRecord (sq : ℚ → ℚ) (data : List ℚ) (splitIndex : ℕ) : StatsResult :=
  let dits := data.take (splitIndex + 1)
  let dahs := data.drop (splitIndex + 1)
  let ditStats := calculateStats sq dits
  let dahStats := calculateStats sq dahs
  let confidence := 1 - avgCVOf ditStats dahStats
  { OptimalThreshold := (dits.getLastD 0 + dahs.headD 0) / 2,
    DitStats := ditStats,
    DahStats := dahStats,
    Confidence := if confidence < 0 then 1/10 else confidence,
    Valid := true }

/-- The body of `Analyze` on the sorted copy of a full window. -/
def analyzeCore (sq : ℚ → ℚ) (data : List ℚ) (n : ℕ) : StatsResult :=
  if (analyzeSplit data n).1 < 20 then invalidStats
  else analyzeRecord sq data (analyzeSplit data n).2.toNat

/-- The `StatisticalAnalyzer.Analyze` from part_004. -/
def analyze (sq : ℚ → ℚ) (s : StatisticalAnalyzer) : StatsResult :=
  if !s.full then invalidStats
  else analyzeCore sq (sortQ s.history) s.windowSize

/-! ## AdaptiveThresholder (src/Filters/AdaptiveThresholder.go) -/

/-- The `AdaptiveThresholder` state. -/
structure AdaptiveThresholder where
  maxLevel : ℚ
  minLevel : ℚ
  decayRate : ℚ
  minRange : ℚ
deriving DecidableEq

/-- The `NewAdaptiveThresholder(decayRate, minRange)`. -/
def newAdaptiveThresholder (decayRate minRange : ℚ) : AdaptiveThresholder :=
  { maxLevel := 0, minLevel := 0, decayRate := decayRate, minRange := minRange }

/-- The envelope-tracking half of `AdaptiveThresholder.Update`:
fast-attack/slow-decay `maxLevel`, fast-attack-down/slow-recovery-up
`minLevel`, and the `min ≤ max` safety clamp. -/
def thresholderTrack (at_ : AdaptiveThresholder) (sample : ℚ) : AdaptiveThresholder :=
  let maxL := if sample > at_.maxLevel then sample else at_.maxLevel * at_.decayRate
  let minL0 :=
    if sample < at_.minLevel then sample
    else at_.minLevel + (maxL - at_.minLevel) * (1 - at_.decayRate)
  let minL := if minL0 > maxL then maxL else minL0
  { at_ with maxLevel := maxL, minLevel := minL }

/-- The `AdaptiveThresholder.Update`: returns the updated tracker and the
`(high, low)` threshold pair. -/
def thresholderUpdate (at_ : AdaptiveThresholder) (sample : ℚ) :
    AdaptiveThresholder × ℚ × ℚ :=
  let st := thresholderTrack at_ sample
  let dynRange := st.maxLevel - st.minLevel
  if dynRange < at_.minRange then (st, 10, 9)
  else
    let center := st.minLevel + dynRange * (1/2)
    let hysteresis := dynRange * (1/20)
    (st, center + hysteresis, center - hysteresis)

/-! ## SchmittTrigger (src/Filters/StateDetection.go) -/

/-- The `StateTransition`: the state that just ended and its duration in ms. -/
structure StateTransition where
  FinishedState : Bool
  DurationMs : ℚ
deriving DecidableEq

/-- The `SchmittTrigger` state. -/
structure SchmittTrigger where
  thresholdHigh : ℚ
  thresholdLow : ℚ
  sampleRate : ℚ
  debounceCount : ℤ
  currentState : Bool
  totalSamples : ℤ
  stateStartSample : ℤ
  pendingChange : Bool
  changeStartSample : ℤ
  thresholder : AdaptiveThresholder
deriving DecidableEq

/-- The `SchmittTrigger.Feed`: one envelope sample in, optional transition out. -/
def feedTrigger (st : SchmittTrigger) (envelope : ℚ) :
    SchmittTrigger × Option StateTransition :=
  let total := st.totalSamples + 1
  let th := (thresholderUpdate st.thresholder envelope).1
  let base := { st with totalSamples := total, thresholder := th }
  let rawSignal :=
    if st.currentState then (if envelope < st.thresholdLow then false else true)
    else (if envelope > st.thresholdHigh then true else false)
  if rawSignal = st.currentState then ({ base with pendingChange := false }, none)
  else if !st.pendingChange then
    ({ base with pendingChange := true, changeStartSample := total }, none)
  else if total - st.changeStartSample > st.debounceCount then
    ({ base with currentState := rawSignal, stateStartSample := st.changeStartSample,
                 pendingChange := false },
     some { FinishedState := st.currentState,
            DurationMs := ((st.changeStartSample - st.stateStartSample : ℤ) : ℚ)
              / st.sampleRate * 1000 })
  else (base, none)

/-- Run the trigger over a list of envelope samples, collecting the
emitted transitions in order. -/
def runTrigger : SchmittTrigger → List ℚ → SchmittTrigger × List StateTransition
  | st, [] => (st, [])
  | st, e :: rest =>
    let r := feedTrigger st e
    let rr := runTrigger r.1 rest
    (rr.1, r.2.toList ++ rr.2)

/-! ## HistoryOptimizer (src/unnamed/part_008) -/

/-- The `HistoryOptimizer` state. -/
structure HistoryOptimizer where
  buffer : List ℚ
  head : ℕ
  isFull : Bool
  sampleRate : ℚ
  downSample : ℕ
  counter : ℕ
deriving DecidableEq

/-- The data slice `SuggestThreshold` copies out of the ring buffer. -/
def historyData (h : HistoryOptimizer) : List ℚ :=
  if h.isFull then h.buffer else h.buffer.take h.head

/-- The `HistoryOptimizer.SuggestThreshold`: `(threshold, peak, noise)`.
`int(count*0.10)` and `int(count*0.95)` are modelled by the exact
truncations `count/10` and `count*95/100`. -/
def suggestThreshold (h : HistoryOptimizer) : ℚ × ℚ × ℚ :=
  if h.isFull = false ∧ h.head = 0 then (1/20, 1/10, 0)
  else
    let data := sortQ (historyData h)
    let count := data.length
    let noiseFloor := data.getD (count / 10) 0
    let signalPeak := data.getD (count * 95 / 100) 0
    if signalPeak < noiseFloor * (3/2) then (noiseFloor * 3, signalPeak, noiseFloor)
    else (noiseFloor + (signalPeak - noiseFloor) * (1/5), signalPeak, noiseFloor)

/-! ## AFC (src/unnamed/part_007) -/

/-- The `AFC` state. -/
structure AFC where
  sampleRate : ℚ
  signalConsecutive : ℤ
  CurrentFreq : ℚ
  targetFreq : ℚ
  prevPhase : ℚ
  phaseInc : ℚ
  gain : ℚ
deriving DecidableEq

/-- The wrapped phase delta of `AFC.Update`, with `math.Pi` abstract. -/
def afcPhaseDelta (piQ currentPhase prevPhase : ℚ) : ℚ :=
  let pd := currentPhase - prevPhase
  if pd > piQ then pd - 2 * piQ
  else if pd < -piQ then pd + 2 * piQ
  else pd

/-- The Hz error `phaseDelta * sampleRate / (2*Pi)` computed by
`AFC.Update`, with `math.Atan2` and `math.Pi` abstract. -/
def afcFreqError (atan2 : ℚ → ℚ → ℚ) (piQ : ℚ) (s : AFC) (i q : ℚ) : ℚ :=
  afcPhaseDelta piQ (atan2 q i) s.prevPhase * s.sampleRate / (2 * piQ)

/-- The `AFC.Update(filteredI, filteredQ, envelope)`: returns the new state
and the emitted `phaseInc`. -/
def afcUpdate (atan2 : ℚ → ℚ → ℚ) (piQ : ℚ) (s : AFC) (i q envelope : ℚ) :
    AFC × ℚ :=
  if envelope > 1/200 then
    let currentPhase := atan2 q i
    let s1 :=
      if s.signalConsecutive > 5 then
        let freqError := afcFreqError atan2 piQ s i q
        if |freqError| > 2 then
          let cf0 := s.CurrentFreq + freqError * s.gain
          let cf :=
            if cf0 > s.targetFreq + 100 then s.targetFreq + 100
            else if cf0 < s.targetFreq - 100 then s.targetFreq - 100
            else cf0
          { s with CurrentFreq := cf, phaseInc := 2 * piQ * cf / s.sampleRate }
        else s
      else s
    let s2 := { s1 with prevPhase := currentPhase,
                        signalConsecutive := s1.signalConsecutive + 1 }
    (s2, s2.phaseInc)
  else
    let s2 := { s with signalConsecutive := 0 }
    (s2, s2.phaseInc)

/-! ## BeamDecoder (src/BeamDecoder/BeamDecoder.go) -/

/-- The `StandardPattern`: a character and its normalized duration sequence. -/
structure StandardPattern where
  Char : String
  Sequence : List ℚ
deriving DecidableEq

/-- The global `Patterns` table (A-Z, 0-9, punctuation). -/
def Patterns : List StandardPattern := [
  ⟨"A", [1, 1, 3]⟩,
  ⟨"B", [3, 1, 1, 1, 1, 1, 1]⟩,
  ⟨"C", [3, 1, 1, 1, 3, 1, 1]⟩,
  ⟨"D", [3, 1, 1, 1, 1]⟩,
  ⟨"E", [1]⟩,
  ⟨"F", [1, 1, 1, 1, 3, 1, 1]⟩,
  ⟨"G", [3, 1, 3, 1, 1]⟩,
  ⟨"H", [1, 1, 1, 1, 1, 1, 1]⟩,
  ⟨"I", [1, 1, 1]⟩,
  ⟨"J", [1, 1, 3, 1, 3, 1, 3]⟩,
  ⟨"K", [3, 1, 1, 1, 3]⟩,
  ⟨"L", [1, 1, 3, 1, 1, 1, 1]⟩,
  ⟨"M", [3, 1, 3]⟩,
  ⟨"N", [3, 1, 1]⟩,
  ⟨"O", [3, 1, 3, 1, 3]⟩,
  ⟨"P", [1, 1, 3, 1, 3, 1, 1]⟩,
  ⟨"Q", [3, 1, 3, 1, 1, 1, 3]⟩,
  ⟨"R", [1, 1, 3, 1, 1]⟩,
  ⟨"S", [1, 1, 1, 1, 1]⟩,
  ⟨"T", [3]⟩,
  ⟨"U", [1, 1, 1, 1, 3]⟩,
  ⟨"V", [1, 1, 1, 1, 1, 1, 3]⟩,
  ⟨"W", [1, 1, 3, 1, 3]⟩,
  ⟨"X", [3, 1, 1, 1, 1, 1, 3]⟩,
  ⟨"Y", [3, 1, 1, 1, 3, 1, 3]⟩,
  ⟨"Z", [3, 1, 3, 1, 1, 1, 1]⟩,
  ⟨"0", [3, 1, 3, 1, 3, 1, 3, 1, 3]⟩,
  ⟨"1", [1, 1, 3, 1, 3, 1, 3, 1, 3]⟩,
  ⟨"2", [1, 1, 1, 1, 3, 1, 3, 1, 3]⟩,
  ⟨"3", [1, 1, 1, 1, 1, 1, 3, 1, 3]⟩,
  ⟨"4", [1, 1, 1, 1, 1, 1, 1, 1, 3]⟩,
  ⟨"5", [1, 1, 1, 1, 1, 1, 1, 1, 1]⟩,
  ⟨"6", [3, 1, 1, 1, 1, 1, 1, 1, 1]⟩,
  ⟨"7", [3, 1, 3, 1, 1, 1, 1, 1, 1]⟩,
  ⟨"8", [3, 1, 3, 1, 3, 1, 1, 1, 1]⟩,
  ⟨"9", [3, 1, 3, 1, 3, 1, 3, 1, 1]⟩,
  ⟨".", [1, 1, 3, 1, 1, 1, 3, 1, 1, 1, 3]⟩,
  ⟨",", [3, 1, 3, 1, 1, 1, 1, 1, 3, 1, 3]⟩,
  ⟨"?", [1, 1, 1, 1, 3, 1, 3, 1, 1, 1, 1]⟩,
  ⟨"\x27", [1, 1, 3, 1, 3, 1, 3, 1, 3, 1, 1]⟩,
  ⟨"!", [3, 1, 1, 1, 3, 1, 1, 1, 3, 1, 3]⟩,
  ⟨"/", [3, 1, 1, 1, 1, 1, 3, 1, 1]⟩,
  ⟨"(", [3, 1, 1, 1, 3, 1, 3, 1, 1]⟩,
  ⟨")", [3, 1, 1, 1, 3, 1, 3, 1, 1, 1, 3]⟩,
  ⟨"&", [1, 1, 3, 1, 1, 1, 1, 1, 1]⟩,
  ⟨":", [3, 1, 3, 1, 3, 1, 1, 1, 1, 1, 1]⟩,
  ⟨";", [3, 1, 1, 1, 3, 1, 1, 1, 3, 1, 1]⟩,
  ⟨"=", [3, 1, 1, 1, 1, 1, 1, 1, 3]⟩,
  ⟨"+", [1, 1, 3, 1, 1, 1, 3, 1, 1]⟩,
  ⟨"-", [3, 1, 1, 1, 1, 1, 1, 1, 1, 1, 3]⟩,
  ⟨"_", [1, 1, 1, 1, 3, 1, 3, 1, 1, 1, 3]⟩,
  ⟨"\"", [1, 1, 3, 1, 1, 1, 1, 1, 3, 1, 1]⟩,
  ⟨"$", [1, 1, 1, 1, 1, 1, 3, 1, 1, 1, 1, 1, 3]⟩,
  ⟨"@", [1, 1, 3, 1, 3, 1, 1, 1, 3, 1, 1]⟩]

/-- The `Path`: a beam hypothesis. -/
structure Path where
  Sentence : String
  LastChar : String
  TotalScore : ℚ
deriving DecidableEq

/-- The `BeamDecoder` state.  The language model is abstracted by its
`GetTransitionScore` function. -/
structure BeamDecoder where
  lm : String → String → ℚ
  beamWidth : ℕ
  paths : List Path
  patterns : List StandardPattern
  statsAnalyzer : StatisticalAnalyzer

/-- The `NewBeamDecoder(lm)`. -/
def newBeamDecoder (lm : String → String → ℚ) : BeamDecoder :=
  { lm := lm, beamWidth := 10,
    paths := [{ Sentence := "", LastChar := "", TotalScore := 0 }],
    patterns := Patterns, statsAnalyzer := newAnalyzer 20 }

/-- The `CalculateEmissionScore_Advanced`. -/
def CalculateEmissionScoreAdvanced (signal pattern : List ℚ) (stats : StatsResult) : ℚ :=
  if signal.length ≠ pattern.length then -1000
  else
    (signal.zip pattern).foldl
      (fun totalScore op =>
        let sigma0 := if op.2 > 2 then stats.DahStats.StdDev else stats.DitStats.StdDev
        let sigma1 := if sigma0 < 1/4 then (1/4 : ℚ) else sigma0
        let sigma := if sigma1 > 5 then (5 : ℚ) else sigma1
        let diff := op.1 - op.2
        totalScore + (-(diff * diff) / (2 * sigma * sigma)))
      0

/-- The `MaxBeamWidth` constant (the `K` used by `PrunePaths`). -/
def MaxBeamWidth : ℕ := 20

/-- The `PruneThreshold` constant. -/
def PruneThreshold : ℚ := 10

/-- The survivor loop of `PrunePaths` (both `break`s and the
`seenStates` dedup modelled directly). -/
def pruneLoop : List Path → List String → List Path → ℚ → List Path
  | [], _, survivors, _ => survivors
  | p :: rest, seen, survivors, best =>
    if survivors.length ≥ MaxBeamWidth then survivors
    else if p.TotalScore < best - PruneThreshold then survivors
    else if p.LastChar ∈ seen then pruneLoop rest seen survivors best
    else pruneLoop rest (p.LastChar :: seen) (survivors ++ [p]) best

/-- The `BeamDecoder.PrunePaths`: sort candidates by score descending,
then keep at most `MaxBeamWidth` within `PruneThreshold` of the best,
deduplicated by `LastChar`. -/
def prunePaths (candidates : List Path) : List Path :=
  if candidates = [] then candidates
  else
    let sorted := candidates.insertionSort (fun a b => b.TotalScore ≤ a.TotalScore)
    pruneLoop sorted [] []
      ((sorted.headD { Sentence := "", LastChar := "", TotalScore := 0 }).TotalScore)

/-- The default statistics `Step` substitutes when the analyzer is not
yet valid: dit stddev 0.2, dah stddev 0.4, all other fields zero. -/
def defaultStepStats : StatsResult :=
  { OptimalThreshold := 0,
    DitStats := { Mean := 0, StdDev := 1/5, Count := 0 },
    DahStats := { Mean := 0, StdDev := 2/5, Count := 0 },
    Confidence := 0, Valid := false }

/-- The statistics actually used by a `Step` call. -/
def effectiveStats (sq : ℚ → ℚ) (bd : BeamDecoder) : StatsResult :=
  let currentStats := analyze sq bd.statsAnalyzer
  if !currentStats.Valid then defaultStepStats else currentStats

/-- The candidate expansion of `Step`: each surviving path extended by
each pattern whose emission score is not below `-50`. -/
def stepCandidates (sq : ℚ → ℚ) (bd : BeamDecoder) (inputSignal : List ℚ) : List Path :=
  let currentStats := effectiveStats sq bd
  bd.paths.flatMap (fun prevPath =>
    bd.patterns.filterMap (fun pattern =>
      let emitScore := CalculateEmissionScoreAdvanced inputSignal pattern.Sequence currentStats
      if emitScore < -50 then none
      else
        let transScore := bd.lm prevPath.LastChar pattern.Char
        some { Sentence := prevPath.Sentence ++ pattern.Char,
               LastChar := pattern.Char,
               TotalScore := prevPath.TotalScore + emitScore + transScore }))

/-- The `BeamDecoder.Step`: expand, and either keep the old paths
(no candidates) or replace them with the pruned candidates. -/
def step (sq : ℚ → ℚ) (bd : BeamDecoder) (inputSignal : List ℚ) : BeamDecoder :=
  let candidates := stepCandidates sq bd inputSignal
  if candidates = [] then bd
  else { bd with paths := prunePaths candidates }

/-- The `BeamDecoder.GetResult`. -/
def getResult (bd : BeamDecoder) : String :=
  match bd.paths with
  | [] => ""
  | p :: _ => p.Sentence

/-- The `BeamDecoder.InjectSpace`. -/
def injectSpace (bd : BeamDecoder) : BeamDecoder :=
  let newPaths := bd.paths.map (fun p =>
    if p.Sentence ≠ "" ∧ p.Sentence.endsWith " " then p
    else if p.Sentence = "" then p
    else { Sentence := p.Sentence ++ " ", LastChar := " ",
           TotalScore := p.TotalScore + bd.lm p.LastChar " " })
  { bd with paths := prunePaths newPaths }

/-! ## CWDecoder symbol buffer (src/BeamDecoder/Decoder.go)

The decoder state carries three ghost fields that never influence the
computation, they only record what happened to the pulse buffer:
* `pulseTags` mirrors `pulseBuffer` entry-by-entry, `true` for an entry
  appended as a mark (a settled `pendingMarkDuration`), `false` for an
  entry appended as a gap (`lastGapDuration`);
* `markLog` accumulates every mark value ever appended by `AddCode`;
* `popLog` accumulates the tag of every entry removed by `delCode`.
-/

/-- The `SignalState`: `StateOn` = mark, `StateOff` = space. -/
inductive SignalState where
  | StateOn : SignalState
  | StateOff : SignalState
deriving DecidableEq

/-- The `CWDecoder` state (configuration inlined, ghost fields appended). -/
structure CWDecoder where
  glitchThresholdMs : ℚ
  updateAlpha : ℚ
  unitTime : ℚ
  pendingMarkDuration : ℚ
  lastGapDuration : ℚ
  charBuffer : String
  statsAnalyzer : StatisticalAnalyzer
  beamDecoder : BeamDecoder
  pulseBuffer : List ℚ
  pulseTags : List Bool
  markLog : List ℚ
  popLog : List Bool

/-- The `NewCWDecoder(cfg, lm)`: unit time `1200/WPM`, analyzer of size 10. -/
def newCWDecoder (initialWPM glitchThresholdMs updateAlpha : ℚ)
    (lm : String → String → ℚ) : CWDecoder :=
  { glitchThresholdMs := glitchThresholdMs, updateAlpha := updateAlpha,
    unitTime := 1200 / initialWPM, pendingMarkDuration := 0, lastGapDuration := 0,
    charBuffer := "", statsAnalyzer := newAnalyzer 10,
    beamDecoder := newBeamDecoder lm, pulseBuffer := [],
    pulseTags := [], markLog := [], popLog := [] }

/-- The `CWDecoder.AddCode(dur)`: append `dur/unitTime` to the pulse buffer.
The extra `tag` argument is ghost: `true` at the mark call site,
`false` at the gap call site. -/
def addCode (d : CWDecoder) (dur : ℚ) (tag : Bool) : CWDecoder :=
  { d with pulseBuffer := d.pulseBuffer ++ [dur / d.unitTime],
           pulseTags := d.pulseTags ++ [tag],
           markLog := if tag then d.markLog ++ [dur / d.unitTime] else d.markLog }

/-- The `CWDecoder.delCode()`: drop the last pulse-buffer entry and return
its raw milliseconds `entry * unitTime`. -/
def delCode (d : CWDecoder) : CWDecoder × ℚ :=
  ({ d with pulseBuffer := d.pulseBuffer.dropLast,
            pulseTags := d.pulseTags.dropLast,
            popLog := d.popLog ++ [d.pulseTags.getLastD false] },
   d.pulseBuffer.getLastD 0 * d.unitTime)

/-- The `CWDecoder.getThreshold(dur)`: feeds the analyzer, then either the
optimal threshold of the analyzer with a confidence-scaled alpha clamped to
`[0.05, 0.5]`, or the fallback `2.2 * unitTime` with the raw alpha.
(The confusion-zone block of the source only prints and is omitted.) -/
def getThreshold (sq : ℚ → ℚ) (d : CWDecoder) (dur : ℚ) : CWDecoder × ℚ × ℚ :=
  let analyzer := addObservation d.statsAnalyzer dur
  let stats := analyze sq analyzer
  let d1 := { d with statsAnalyzer := analyzer }
  if stats.Valid then
    let a0 := d.updateAlpha * stats.Confidence
    let a1 := if a0 < 1/20 then (1/20 : ℚ) else a0
    let a2 := if a1 > 1/2 then (1/2 : ℚ) else a1
    (d1, stats.OptimalThreshold, a2)
  else
    (d1, d.unitTime * (11/5), d.updateAlpha)

/-- The unit-time value after classification, outlier rejection and the
EMA update of `updateWPM1`, before the 10 ms floor check. -/
def wpmPreClamp (sq : ℚ → ℚ) (d : CWDecoder) (dur : ℚ) : ℚ :=
  let r := getThreshold sq d dur
  let threshold := r.2.1
  let currentAlpha := r.2.2
  let sampleUnit := if dur > threshold then dur / 3 else dur
  if sampleUnit > d.unitTime * (1/2) ∧ sampleUnit < d.unitTime * (3/2) then
    currentAlpha * sampleUnit + (1 - currentAlpha) * d.unitTime
  else d.unitTime

/-- The `CWDecoder.updateWPM1(dur)`: EMA unit-time update with the 10 ms
floor that resets to 60 ms. -/
def updateWPM1 (sq : ℚ → ℚ) (d : CWDecoder) (dur : ℚ) : CWDecoder :=
  let d1 := (getThreshold sq d dur).1
  let u1 := wpmPreClamp sq d dur
  { d1 with unitTime := if u1 < 10 then 60 else u1 }

/-- The mark-settlement phase of `FeedNew` (the `pendingMarkDuration > 0`
block): a real mark updates WPM and is appended; a high-side glitch is
discarded and its silence is reconstructed into `lastGapDuration`. -/
def settlePendingMark (sq : ℚ → ℚ) (d : CWDecoder) : CWDecoder :=
  if d.pendingMarkDuration > 0 then
    if d.pendingMarkDuration > d.glitchThresholdMs then
      let dw := updateWPM1 sq d d.pendingMarkDuration
      addCode dw dw.pendingMarkDuration true
    else
      if d.pulseBuffer ≠ [] then
        let r := delCode d
        { r.1 with lastGapDuration := r.1.lastGapDuration + r.2 + r.1.pendingMarkDuration }
      else
        { d with lastGapDuration := d.lastGapDuration + d.pendingMarkDuration }
  else d

/-- The gap-settlement phase of `FeedNew`: a character boundary hands the
buffer to the beam decoder (and possibly injects a word space); a short
positive gap is appended to a non-empty buffer. -/
def settleGap (sq : ℚ → ℚ) (d : CWDecoder) : CWDecoder :=
  if d.lastGapDuration > d.unitTime * (5/2) then
    let bd1 := if d.pulseBuffer ≠ [] then step sq d.beamDecoder d.pulseBuffer else d.beamDecoder
    let buf1 : List ℚ := if d.pulseBuffer ≠ [] then [] else d.pulseBuffer
    let tags1 : List Bool := if d.pulseBuffer ≠ [] then [] else d.pulseTags
    let bd2 := if d.lastGapDuration > d.unitTime * 5 then injectSpace bd1 else bd1
    { d with beamDecoder := bd2, pulseBuffer := buf1, pulseTags := tags1 }
  else if d.lastGapDuration > 0 then
    if d.pulseBuffer ≠ [] then addCode d d.lastGapDuration false else d
  else d

/-- The `CWDecoder.FeedNew(durationMs, state)`: returns the new state and the
decoded best sentence (empty while merging). -/
def feedNew (sq : ℚ → ℚ) (d : CWDecoder) (durationMs : ℚ) (state : SignalState) :
    CWDecoder × String :=
  match state with
  | .StateOff =>
    ({ d with lastGapDuration := d.lastGapDuration + durationMs }, "")
  | .StateOn =>
    if d.lastGapDuration > 0 ∧ d.lastGapDuration < d.glitchThresholdMs then
      ({ d with pendingMarkDuration := d.pendingMarkDuration + d.lastGapDuration + durationMs,
                lastGapDuration := 0 }, "")
    else
      let d2 := settleGap sq (settlePendingMark sq d)
      let d3 := { d2 with pendingMarkDuration := durationMs, lastGapDuration := 0 }
      (d3, getResult d3.beamDecoder)

/-- Feed a whole list of `(durationMs, state)` events. -/
def runCW (sq : ℚ → ℚ) : CWDecoder → List (ℚ × SignalState) → CWDecoder
  | d, [] => d
  | d, e :: rest => runCW sq (feedNew sq d e.1 e.2).1 rest

/-- Input sequences as the Schmitt trigger produces them: every duration
is positive and consecutive events alternate state; `prev` is the state
of the event delivered just before the list (`none` at start-up). -/
def altOk : Option SignalState → List (ℚ × SignalState) → Bool
  | _, [] => true
  | none, e :: rest => decide (0 < e.1) && altOk (some e.2) rest
  | some p, e :: rest => (decide (0 < e.1) && decide (e.2 ≠ p)) && altOk (some e.2) rest

/-- The alternating tag pattern mark, gap, mark, gap, ... of length `n`:
`true` exactly at the even indices. -/
def tagsOf (n : ℕ) : List Bool :=
  (List.range n).map (fun i => decide (i % 2 = 0))

/-- The buffer-shape invariant of the symbol buffer: tags alternate
mark, gap, mark, gap, ... (so even indices are marks and odd indices are
gaps), the buffer holds full mark/gap pairs between calls, all entries
are non-negative, durations are non-negative, the unit time is positive,
the buffer is empty until the first mark settles, and every entry ever
popped by `delCode` was a gap. -/
def BufInv (d : CWDecoder) : Prop :=
  d.pulseTags = tagsOf d.pulseBuffer.length
  ∧ d.pulseBuffer.length % 2 = 0
  ∧ (∀ v ∈ d.pulseBuffer, 0 ≤ v)
  ∧ 0 ≤ d.pendingMarkDuration
  ∧ 0 ≤ d.lastGapDuration
  ∧ 0 < d.unitTime
  ∧ (d.pendingMarkDuration = 0 → d.pulseBuffer = [])
  ∧ (∀ t ∈ d.popLog, t = false)

instance (d : CWDecoder) : Decidable (BufInv d) := by
  unfold BufInv; infer_instance

/-- What must hold of the decoder state given the state of the event
delivered just before now. -/
def PrevOk : Option SignalState → CWDecoder → Prop
  | none, d => d.pendingMarkDuration = 0 ∧ d.lastGapDuration = 0
  | some .StateOff, d => 0 < d.lastGapDuration
  | some .StateOn, _ => True

/-- The zero path used as a `headD` default. -/
def defaultPath : Path := { Sentence := "", LastChar := "", TotalScore := 0 }

/-! ## Concrete instances used by witnesses and counterexamples -/

/-- A trivial language-model scoring function. -/
def lmZ : String → String → ℚ := fun _ _ => 0

/-- A full 6-sample analyzer window; sorted it is
`[1, 1, 39, 39, 100, 3900]`, whose dit cluster `[1, 1, 39, 39]` has mean
20 and standard deviation 19 and whose dah cluster `[100, 3900]` has
mean 2000 and standard deviation 1900 (both variances are perfect
squares, so `math.Sqrt` is exact here). -/
def cexAnalyzer : StatisticalAnalyzer :=
  { windowSize := 6, history := [39, 1, 3900, 39, 100, 1], cursor := 0, full := true }

/-- A second full window for the C9 witness: sorted
`[10, 30, 100, 120]`, dits `[10, 30]` (mean 20, stddev 10), dahs
`[100, 120]` (mean 110, stddev 10). -/
def witAnalyzer : StatisticalAnalyzer :=
  { windowSize := 4, history := [100, 10, 120, 30], cursor := 0, full := true }

/-- A freshly constructed symbol buffer: 20 WPM (unit time 60 ms),
glitch threshold 15 ms, update alpha 0.25. -/
def cwInitC : CWDecoder := newCWDecoder 20 15 (1/4) lmZ

/-- A freshly constructed beam decoder. -/
def bdW : BeamDecoder := newBeamDecoder lmZ

/-- A trigger state with a pending change old enough to commit on the
next confirming sample. -/
def stW : SchmittTrigger :=
  { thresholdHigh := 1/2, thresholdLow := 1/5, sampleRate := 1000, debounceCount := 10,
    currentState := false, totalSamples := 100, stateStartSample := 0,
    pendingChange := true, changeStartSample := 5,
    thresholder := newAdaptiveThresholder (9995/10000) (1/200) }

/-- A squelched trigger state (sentinel thresholds high=10, low=9). -/
def stSquelch : SchmittTrigger :=
  { thresholdHigh := 10, thresholdLow := 9, sampleRate := 48000, debounceCount := 576,
    currentState := false, totalSamples := 0, stateStartSample := 0,
    pendingChange := false, changeStartSample := 0,
    thresholder := newAdaptiveThresholder (9995/10000) (1/5) }

/-- A full 10-sample history optimizer ring. -/
def hoW : HistoryOptimizer :=
  { buffer := [1, 2, 3, 4, 5, 6, 7, 8, 9, 10], head := 0, isFull := true,
    sampleRate := 48000, downSample := 480, counter := 0 }

/-- An AFC locked on 700 Hz with enough consecutive signal samples. -/
def afcW : AFC :=
  { sampleRate := 48000, signalConsecutive := 8, CurrentFreq := 700,
    targetFreq := 700, prevPhase := 0, phaseInc := 0, gain := 1/5000 }

/-! # Theorems -/

/-! ## Shared helper lemmas -/

theorem updateWPM1_unitTime_ge (sq : ℚ → ℚ) (d : CWDecoder) (dur : ℚ) :
    10 ≤ (updateWPM1 sq d dur).unitTime := by
  unfold updateWPM1
  dsimp only
  split
  · norm_num
  · linarith [not_lt.mp (by assumption : ¬ wpmPreClamp sq d dur < 10)]

/-! ## C7 -/

/-- C7: after every `updateWPM1` call the stored unit time is at least
10 ms (for any observed mark duration and any starting state, so in
particular whenever the initial unit time is at least 10 ms), and
whenever the EMA update would leave the unit time below 10 ms it is
instead reset to 60 ms. -/
theorem c7_unit_time_floor (sq : ℚ → ℚ) (d : CWDecoder) (dur : ℚ) :
    10 ≤ (updateWPM1 sq d dur).unitTime ∧
      (wpmPreClamp sq d dur < 10 → (updateWPM1 sq d dur).unitTime = 60) := by
  refine ⟨updateWPM1_unitTime_ge sq d dur, fun h => ?_⟩
  unfold updateWPM1
  dsimp only
  rw [if_pos h]

/-- Witness for C7 at a concrete state and duration. -/
theorem c7_unit_time_floor_witness :
    10 ≤ (updateWPM1 sqrtQ cwInitC 100).unitTime ∧
      (wpmPreClamp sqrtQ cwInitC 100 < 10 → (updateWPM1 sqrtQ cwInitC 100).unitTime = 60) :=
  c7_unit_time_floor sqrtQ cwInitC 100

/-! ## C2 -/

/-- C2: a `SchmittTrigger.Feed` call commits a state change only when
the pending duration `total_samples - change_start` strictly exceeds
`debounce_count` (equality never commits); the emitted transition
carries the duration computed from `change_start - state_start_sample`,
its `FinishedState` is the state that just ended, and
`state_start_sample` is updated to `change_start`. -/
theorem c2_trigger_commit (st : SchmittTrigger) (envelope : ℚ) :
    (∀ tr, (feedTrigger st envelope).2 = some tr →
        st.debounceCount < st.totalSamples + 1 - st.changeStartSample ∧
        tr.DurationMs =
          ((st.changeStartSample - st.stateStartSample : ℤ) : ℚ) / st.sampleRate * 1000 ∧
        tr.FinishedState = st.currentState ∧
        (feedTrigger st envelope).1.stateStartSample = st.changeStartSample) ∧
      (st.totalSamples + 1 - st.changeStartSample = st.debounceCount →
        (feedTrigger st envelope).2 = none) := by
  unfold feedTrigger
  dsimp only
  split_ifs <;>
    first
    | exact ⟨fun tr htr => by simp at htr, fun _ => rfl⟩
    | · rename_i hcommit
        refine ⟨fun tr htr => ?_, fun heq => absurd hcommit (by omega)⟩
        simp only [Option.some.injEq] at htr
        subst htr
        exact ⟨hcommit, rfl, rfl, rfl⟩

/-- Witness for C2: a concrete committing call (pending since sample 5,
debounce 10, 96 pending samples at commit time). -/
theorem c2_trigger_commit_witness :
    (feedTrigger stW 1).2 = some { FinishedState := false, DurationMs := 5 } ∧
      (stW.debounceCount < stW.totalSamples + 1 - stW.changeStartSample ∧
        ({ FinishedState := false, DurationMs := 5 } : StateTransition).DurationMs =
          ((stW.changeStartSample - stW.stateStartSample : ℤ) : ℚ) / stW.sampleRate * 1000 ∧
        ({ FinishedState := false, DurationMs := 5 } : StateTransition).FinishedState =
          stW.currentState ∧
        (feedTrigger stW 1).1.stateStartSample = stW.changeStartSample) := by
  have hfeed : (feedTrigger stW 1).2 = some { FinishedState := false, DurationMs := 5 } := by
    norm_num [feedTrigger, stW]
  exact ⟨hfeed, (c2_trigger_commit stW 1).1 { FinishedState := false, DurationMs := 5 } hfeed⟩

/-! ## C6 -/

/-- C6: across any `AFC.Update` call the target frequency is unchanged
and the current frequency stays within `targetFreq ± 100`; the current
frequency changes only when the envelope exceeds the 0.005 signal gate,
only with at least 5 consecutive prior above-gate samples, and only when
the phase-derived Hz error exceeds the 2 Hz dead-band; a sample at or
below the gate resets the consecutive-signal counter to zero.  Stated
for every value of the abstract `atan2` and `pi` parameters. -/
theorem c6_afc_invariants (atan2 : ℚ → ℚ → ℚ) (piQ : ℚ) (s : AFC) (i q envelope : ℚ) :
    ((afcUpdate atan2 piQ s i q envelope).1.targetFreq = s.targetFreq) ∧
      (|s.CurrentFreq - s.targetFreq| ≤ 100 →
        |(afcUpdate atan2 piQ s i q envelope).1.CurrentFreq - s.targetFreq| ≤ 100) ∧
      ((afcUpdate atan2 piQ s i q envelope).1.CurrentFreq ≠ s.CurrentFreq →
        1/200 < envelope ∧ 5 ≤ s.signalConsecutive ∧
          2 < |afcFreqError atan2 piQ s i q|) ∧
      (envelope ≤ 1/200 → (afcUpdate atan2 piQ s i q envelope).1.signalConsecutive = 0) := by
  unfold afcUpdate
  dsimp only
  split_ifs with h1 h2 h3 h4 h5
  · -- gate open, counter high, dead-band exceeded, clamped high
    refine ⟨rfl, fun _ => ?_, fun _ => ⟨h1, by omega, h3⟩, fun hle => absurd h1 (not_lt.mpr hle)⟩
    dsimp only
    rw [abs_le]
    constructor <;> norm_num
  · -- clamped low
    refine ⟨rfl, fun _ => ?_, fun _ => ⟨h1, by omega, h3⟩, fun hle => absurd h1 (not_lt.mpr hle)⟩
    dsimp only
    rw [abs_le]
    constructor <;> norm_num
  · -- in-band update
    refine ⟨rfl, fun _ => ?_, fun _ => ⟨h1, by omega, h3⟩, fun hle => absurd h1 (not_lt.mpr hle)⟩
    dsimp only
    rw [abs_le]
    constructor <;> linarith [not_lt.mp h4, not_lt.mp h5]
  · -- dead-band
    exact ⟨rfl, fun hb => hb, fun hne => absurd rfl hne,
      fun hle => absurd h1 (not_lt.mpr hle)⟩
  · -- counter too low
    exact ⟨rfl, fun hb => hb, fun hne => absurd rfl hne,
      fun hle => absurd h1 (not_lt.mpr hle)⟩
  · -- gate closed
    exact ⟨rfl, fun hb => hb, fun hne => absurd rfl hne, fun _ => rfl⟩

/-- Witness for C6 at a concrete in-range state. -/
theorem c6_afc_invariants_witness :
    |afcW.CurrentFreq - afcW.targetFreq| ≤ 100 ∧
      |(afcUpdate (fun _ _ => 1) 3 afcW 1 1 1).1.CurrentFreq - afcW.targetFreq| ≤ 100 := by
  have hin : |afcW.CurrentFreq - afcW.targetFreq| ≤ 100 := by norm_num [afcW]
  exact ⟨hin, (c6_afc_invariants (fun _ _ => 1) 3 afcW 1 1 1).2.1 hin⟩

/-! ## C5 -/

/-- C5: on any history buffer with at least one available sample,
`SuggestThreshold` returns `(threshold, peak, noise)` where `noise` is
the 10th-percentile entry of the sorted available samples, `peak` the
95th-percentile entry, `threshold = noise + 0.2 * (peak - noise)`, and
whenever `peak < 1.5 * noise` it returns `(3 * noise, peak, noise)`. -/
theorem c5_suggest_threshold (h : HistoryOptimizer) (hne : h.isFull = true ∨ 0 < h.head) :
    (suggestThreshold h).2.2 =
        (sortQ (historyData h)).getD ((sortQ (historyData h)).length / 10) 0 ∧
      (suggestThreshold h).2.1 =
        (sortQ (historyData h)).getD ((sortQ (historyData h)).length * 95 / 100) 0 ∧
      ((suggestThreshold h).2.1 < (3/2) * (suggestThreshold h).2.2 →
        (suggestThreshold h).1 = 3 * (suggestThreshold h).2.2) ∧
      (¬ (suggestThreshold h).2.1 < (3/2) * (suggestThreshold h).2.2 →
        (suggestThreshold h).1 =
          (suggestThreshold h).2.2 +
            (1/5) * ((suggestThreshold h).2.1 - (suggestThreshold h).2.2)) := by
  have hc : ¬ (h.isFull = false ∧ h.head = 0) := by
    rcases hne with hf | hh
    · simp [hf]
    · exact fun hk => absurd hk.2 (by omega)
  unfold suggestThreshold
  rw [if_neg hc]
  dsimp only
  split_ifs with hs
  · refine ⟨rfl, rfl, fun _ => by ring, fun hcon => absurd (by linarith) hcon⟩
  · refine ⟨rfl, rfl, fun hcon => absurd (by linarith) hs, fun _ => by ring⟩

/-- Witness for C5 on a full 10-sample ring `[1..10]`. -/
theorem c5_suggest_threshold_witness :
    (suggestThreshold hoW).2.2 =
        (sortQ (historyData hoW)).getD ((sortQ (historyData hoW)).length / 10) 0 ∧
      (suggestThreshold hoW).2.1 =
        (sortQ (historyData hoW)).getD ((sortQ (historyData hoW)).length * 95 / 100) 0 ∧
      ((suggestThreshold hoW).2.1 < (3/2) * (suggestThreshold hoW).2.2 →
        (suggestThreshold hoW).1 = 3 * (suggestThreshold hoW).2.2) ∧
      (¬ (suggestThreshold hoW).2.1 < (3/2) * (suggestThreshold hoW).2.2 →
        (suggestThreshold hoW).1 =
          (suggestThreshold hoW).2.2 +
            (1/5) * ((suggestThreshold hoW).2.1 - (suggestThreshold hoW).2.2)) :=
  c5_suggest_threshold hoW (Or.inl rfl)

/-! ## C8 -/

theorem trigger_squelch_feed (st : SchmittTrigger) (e : ℚ)
    (hH : st.thresholdHigh = 10) (hC : st.currentState = false) (he : e ≤ 10) :
    (feedTrigger st e).1.currentState = false ∧ (feedTrigger st e).2 = none ∧
      (feedTrigger st e).1.thresholdHigh = 10 := by
  unfold feedTrigger
  have hr : ¬ e > st.thresholdHigh := by rw [hH]; exact not_lt.mpr he
  simp [hC, hr, hH, he]

theorem trigger_squelch_run (envs : List ℚ) : ∀ st : SchmittTrigger,
    st.thresholdHigh = 10 → st.currentState = false → (∀ e ∈ envs, e ≤ 10) →
    (runTrigger st envs).1.currentState = false ∧ (runTrigger st envs).2 = [] := by
  induction envs with
  | nil => exact fun st _ h2 _ => ⟨h2, rfl⟩
  | cons e rest ih =>
    intro st h1 h2 he
    obtain ⟨hc, hn, hh⟩ :=
      trigger_squelch_feed st e h1 h2 (he e (List.mem_cons_self e rest))
    obtain ⟨ihc, ihn⟩ :=
      ih (feedTrigger st e).1 hh hc (fun x hx => he x (List.mem_cons_of_mem e hx))
    unfold runTrigger
    dsimp only
    rw [hn]
    exact ⟨ihc, by simpa using ihn⟩

/-- C8: whenever the post-update dynamic range of the adaptive thresholder,
`maxLevel - minLevel` is below `minRange`, `Update` returns the squelch
sentinel `(high, low) = (10, 9)`; and a Schmitt trigger whose high
threshold is this sentinel value 10, currently in the space state, never
commits any transition (in particular never a transition to mark) on any
envelope sequence whose samples never exceed 10 (every real envelope is
far below 10, so the sentinel squelches the trigger indefinitely). -/
theorem c8_squelch_sentinel (at_ : AdaptiveThresholder) (sample : ℚ)
    (st : SchmittTrigger) (envs : List ℚ) :
    ((thresholderUpdate at_ sample).1.maxLevel - (thresholderUpdate at_ sample).1.minLevel
        < at_.minRange → (thresholderUpdate at_ sample).2 = (10, 9)) ∧
      (st.thresholdHigh = 10 → st.currentState = false → (∀ e ∈ envs, e ≤ 10) →
        (runTrigger st envs).1.currentState = false ∧ (runTrigger st envs).2 = []) := by
  constructor
  · intro hlt
    have hfst : (thresholderUpdate at_ sample).1 = thresholderTrack at_ sample := by
      unfold thresholderUpdate
      dsimp only
      split <;> rfl
    rw [hfst] at hlt
    unfold thresholderUpdate
    dsimp only
    rw [if_pos hlt]
  · exact fun h1 h2 h3 => trigger_squelch_run envs st h1 h2 h3

/-- Witness for C8: the squelched trigger stays in space over a concrete
envelope burst. -/
theorem c8_squelch_sentinel_witness :
    (runTrigger stSquelch [1, 2, 1]).1.currentState = false ∧
      (runTrigger stSquelch [1, 2, 1]).2 = [] :=
  (c8_squelch_sentinel (newAdaptiveThresholder (9995/10000) (1/5)) 0 stSquelch [1, 2, 1]).2
    rfl rfl (by norm_num)

/-! ## C4 -/

theorem emission_mismatch (signal pattern : List ℚ) (stats : StatsResult)
    (h : signal.length ≠ pattern.length) :
    CalculateEmissionScoreAdvanced signal pattern stats = -1000 := by
  unfold CalculateEmissionScoreAdvanced
  rw [if_pos h]

/-- C4: if the emission score of every pattern against the input pulse vector
falls below -50 (as under pure noise), `Step` generates no candidate and
leaves the decoder state completely unchanged; in particular the paths
and the emitted best sentence are unchanged. -/
theorem c4_step_noise_retains (sq : ℚ → ℚ) (bd : BeamDecoder) (inputSignal : List ℚ)
    (hp : ∀ pat ∈ bd.patterns,
      CalculateEmissionScoreAdvanced inputSignal pat.Sequence (effectiveStats sq bd) < -50) :
    step sq bd inputSignal = bd ∧ getResult (step sq bd inputSignal) = getResult bd := by
  have hc : stepCandidates sq bd inputSignal = [] := by
    unfold stepCandidates
    rw [List.flatMap_eq_nil_iff]
    intro p _
    rw [List.filterMap_eq_nil_iff]
    intro pat hpat
    dsimp only
    rw [if_pos (hp pat hpat)]
  have hstep : step sq bd inputSignal = bd := by
    unfold step
    rw [hc]
    rfl
  exact ⟨hstep, by rw [hstep]⟩

/-- Witness for C4: the empty pulse vector mismatches every pattern
(score -1000 < -50), so a fresh decoder is untouched by the step. -/
theorem c4_step_noise_retains_witness :
    step sqrtQ bdW [] = bdW ∧ getResult (step sqrtQ bdW []) = getResult bdW := by
  have hlen : ∀ pat ∈ bdW.patterns, pat.Sequence.length ≠ 0 := by decide
  refine c4_step_noise_retains sqrtQ bdW [] (fun pat hpat => ?_)
  rw [emission_mismatch [] pat.Sequence (effectiveStats sqrtQ bdW)
    (by simpa using (hlen pat hpat).symm)]
  norm_num

/-! ## C9 -/

/-- C9 (amended): on every window where `Analyze` returns a valid
result, the returned confidence equals `1 - avg(stddev/mean)` whenever
that quantity is nonnegative, and is replaced by `0.1` exactly when it
is negative; so the confidence is never negative, but it is not clamped
to `0.1` from below (values in `(0, 0.1)` are returned as they are). -/
theorem c9_analyze_confidence (sq : ℚ → ℚ) (s : StatisticalAnalyzer)
    (hv : (analyze sq s).Valid = true) :
    0 ≤ (analyze sq s).Confidence ∧
      (analyze sq s).Confidence =
        if 1 - avgCVOf (analyze sq s).DitStats (analyze sq s).DahStats < 0 then 1/10
        else 1 - avgCVOf (analyze sq s).DitStats (analyze sq s).DahStats := by
  have hshape : analyze sq s =
      analyzeRecord sq (sortQ s.history)
        (analyzeSplit (sortQ s.history) s.windowSize).2.toNat := by
    by_cases h1 : (!s.full) = true
    · rw [analyze, if_pos h1] at hv
      exact absurd hv (by simp [invalidStats])
    · rw [analyze, if_neg h1] at hv ⊢
      by_cases h2 : (analyzeSplit (sortQ s.history) s.windowSize).1 < 20
      · rw [analyzeCore, if_pos h2] at hv
        exact absurd hv (by simp [invalidStats])
      · rw [analyzeCore, if_neg h2]
  rw [hshape]
  unfold analyzeRecord
  dsimp only
  constructor
  · split
    · norm_num
    · linarith [not_lt.mp (by assumption :
        ¬ 1 - avgCVOf (calculateStats sq _) (calculateStats sq _) < 0)]
  · rfl

theorem sqrtQ_ofNat (m k : ℕ) (h : k * k = m)
    (hnum : ((OfNat.ofNat m : ℚ)).num = OfNat.ofNat m)
    (hden : ((OfNat.ofNat m : ℚ)).den = 1) :
    sqrtQ (OfNat.ofNat m) = (k : ℚ) := by
  unfold sqrtQ
  rw [hnum, hden]
  have h1 : (OfNat.ofNat m : ℤ).toNat = m := rfl
  rw [h1, ← h, Nat.sqrt_eq, Nat.sqrt_one]
  norm_num

theorem sq100 : sqrtQ 100 = 10 :=
  sqrtQ_ofNat 100 10 (by norm_num) (by norm_num) (by norm_num)

theorem sq361 : sqrtQ 361 = 19 :=
  sqrtQ_ofNat 361 19 (by norm_num) (by norm_num) (by norm_num)

theorem sq3610000 : sqrtQ 3610000 = 1900 :=
  sqrtQ_ofNat 3610000 1900 (by norm_num) (by norm_num) (by norm_num)

theorem c9_cex_eval : analyze sqrtQ cexAnalyzer =
    { OptimalThreshold := 139/2, DitStats := { Mean := 20, StdDev := 19, Count := 4 },
      DahStats := { Mean := 2000, StdDev := 1900, Count := 2 },
      Confidence := 1/20, Valid := true } := by
  have hs : sortQ cexAnalyzer.history = [1, 1, 39, 39, 100, 3900] := by
    norm_num [cexAnalyzer, sortQ, List.insertionSort, List.orderedInsert]
  have hsplit : analyzeSplit [1, 1, 39, 39, 100, 3900] 6 = (61, 3) := by
    norm_num [analyzeSplit, maxGapScan, List.range', List.getD_cons_succ, List.getD_cons_zero]
  rw [analyze, if_neg (by norm_num [cexAnalyzer])]
  rw [show cexAnalyzer.windowSize = 6 from rfl, hs]
  unfold analyzeCore
  rw [hsplit, if_neg (by norm_num), show ((61 : ℚ), (3 : ℤ)).2.toNat = 3 from rfl]
  norm_num [analyzeRecord, calculateStats, avgCVOf, sq361, sq3610000, List.getLastD]

theorem c9_wit_eval : analyze sqrtQ witAnalyzer =
    { OptimalThreshold := 65, DitStats := { Mean := 20, StdDev := 10, Count := 2 },
      DahStats := { Mean := 110, StdDev := 10, Count := 2 },
      Confidence := 31/44, Valid := true } := by
  have hs : sortQ witAnalyzer.history = [10, 30, 100, 120] := by
    norm_num [witAnalyzer, sortQ, List.insertionSort, List.orderedInsert]
  have hsplit : analyzeSplit [10, 30, 100, 120] 4 = (70, 1) := by
    norm_num [analyzeSplit, maxGapScan, List.range', List.getD_cons_succ, List.getD_cons_zero]
  rw [analyze, if_neg (by norm_num [witAnalyzer])]
  rw [show witAnalyzer.windowSize = 4 from rfl, hs]
  unfold analyzeCore
  rw [hsplit, if_neg (by norm_num), show ((70 : ℚ), (1 : ℤ)).2.toNat = 1 from rfl]
  norm_num [analyzeRecord, calculateStats, avgCVOf, sq100, List.getLastD]

/-- C9 counterexample: a concrete valid full window (sorted
`[1, 1, 39, 39, 100, 3900]`) on which `Analyze` returns confidence
`1/20 = 0.05`, strictly below the claimed floor of `0.1`: the source
only replaces the confidence by `0.1` when `1 - avg(stddev/mean)` is
negative, so values in `(0, 0.1)` are returned unclamped. -/
theorem c9_confidence_cex :
    (analyze sqrtQ cexAnalyzer).Valid = true ∧
      (analyze sqrtQ cexAnalyzer).Confidence =
        1 - avgCVOf (analyze sqrtQ cexAnalyzer).DitStats (analyze sqrtQ cexAnalyzer).DahStats ∧
      (analyze sqrtQ cexAnalyzer).Confidence < 1/10 := by
  rw [c9_cex_eval]
  refine ⟨rfl, ?_, by norm_num⟩
  norm_num [avgCVOf]

/-- Witness for the amended C9 on a second concrete valid window. -/
theorem c9_analyze_confidence_witness :
    0 ≤ (analyze sqrtQ witAnalyzer).Confidence ∧
      (analyze sqrtQ witAnalyzer).Confidence =
        if 1 - avgCVOf (analyze sqrtQ witAnalyzer).DitStats
            (analyze sqrtQ witAnalyzer).DahStats < 0
        then 1/10
        else 1 - avgCVOf (analyze sqrtQ witAnalyzer).DitStats
            (analyze sqrtQ witAnalyzer).DahStats :=
  c9_analyze_confidence sqrtQ witAnalyzer (by rw [c9_wit_eval])

/-! ## C3 -/

theorem pruneLoop_shape (rem : List Path) :
    ∀ seen survivors best, ∃ t, t.Sublist rem ∧
      pruneLoop rem seen survivors best = survivors ++ t := by
  induction rem with
  | nil =>
    intro seen survivors best
    exact ⟨[], List.Sublist.refl [], by simp [pruneLoop]⟩
  | cons p rest ih =>
    intro seen survivors best
    unfold pruneLoop
    split_ifs with h1 h2 h3
    · exact ⟨[], List.nil_sublist _, by simp⟩
    · exact ⟨[], List.nil_sublist _, by simp⟩
    · obtain ⟨t, hs, he⟩ := ih seen survivors best
      exact ⟨t, hs.cons p, he⟩
    · obtain ⟨t, hs, he⟩ := ih (p.LastChar :: seen) (survivors ++ [p]) best
      refine ⟨p :: t, hs.cons₂ p, ?_⟩
      rw [he, List.append_assoc]
      rfl

theorem pruneLoop_length (rem : List Path) :
    ∀ seen survivors best, survivors.length ≤ MaxBeamWidth →
      (pruneLoop rem seen survivors best).length ≤ MaxBeamWidth := by
  induction rem with
  | nil => intro _ _ _ h; simpa [pruneLoop] using h
  | cons p rest ih =>
    intro seen survivors best h
    unfold pruneLoop
    split_ifs with h1 h2 h3
    · exact h
    · exact h
    · exact ih seen survivors best h
    · refine ih _ _ best ?_
      have h1lt : survivors.length < MaxBeamWidth := Nat.lt_of_not_le h1
      rw [List.length_append, List.length_singleton]
      omega

theorem pruneLoop_score (rem : List Path) :
    ∀ seen survivors best,
      (∀ x ∈ survivors, best - PruneThreshold ≤ x.TotalScore) →
      ∀ x ∈ pruneLoop rem seen survivors best, best - PruneThreshold ≤ x.TotalScore := by
  induction rem with
  | nil => intro _ _ _ h; simpa [pruneLoop] using h
  | cons p rest ih =>
    intro seen survivors best h
    unfold pruneLoop
    split_ifs with h1 h2 h3
    · exact h
    · exact h
    · exact ih seen survivors best h
    · refine ih _ _ best (fun x hx => ?_)
      rcases List.mem_append.mp hx with hx | hx
      · exact h x hx
      · rw [List.mem_singleton.mp hx]
        linarith [not_lt.mp h2]

theorem pruneLoop_dedup (rem : List Path) :
    ∀ seen survivors best,
      (∀ x ∈ survivors, x.LastChar ∈ seen) →
      survivors.Pairwise (fun a b => a.LastChar ≠ b.LastChar) →
      (pruneLoop rem seen survivors best).Pairwise (fun a b => a.LastChar ≠ b.LastChar) := by
  induction rem with
  | nil => intro _ _ _ _ h; simpa [pruneLoop] using h
  | cons p rest ih =>
    intro seen survivors best hseen hpw
    unfold pruneLoop
    split_ifs with h1 h2 h3
    · exact hpw
    · exact hpw
    · exact ih seen survivors best hseen hpw
    · refine ih _ _ best (fun x hx => ?_) ?_
      · rcases List.mem_append.mp hx with hx | hx
        · exact List.mem_cons_of_mem _ (hseen x hx)
        · rw [List.mem_singleton.mp hx]
          exact List.mem_cons_self _ _
      · rw [List.pairwise_append]
        refine ⟨hpw, List.pairwise_singleton _ _, fun a ha b hb => ?_⟩
        rw [List.mem_singleton.mp hb]
        intro hEq
        exact h3 (hEq ▸ hseen a ha)

theorem pruneLoop_nil_start (q : Path) (qs : List Path) :
    ∃ t, t.Sublist qs ∧ pruneLoop (q :: qs) [] [] q.TotalScore = q :: t := by
  unfold pruneLoop
  rw [if_neg (by simp [MaxBeamWidth]), if_neg (by norm_num [PruneThreshold]),
    if_neg (by simp)]
  obtain ⟨t, hs, he⟩ := pruneLoop_shape qs [q.LastChar] [q] q.TotalScore
  refine ⟨t, hs, ?_⟩
  rw [show ([] ++ [q] : List Path) = [q] from rfl, he]
  rfl

theorem prunePaths_spec (candidates : List Path) (hne : candidates ≠ []) :
    (prunePaths candidates).Pairwise (fun a b => b.TotalScore ≤ a.TotalScore) ∧
      (prunePaths candidates).length ≤ MaxBeamWidth ∧
      (∀ x ∈ prunePaths candidates,
        ((prunePaths candidates).headD defaultPath).TotalScore - x.TotalScore
          ≤ PruneThreshold) ∧
      (prunePaths candidates).Pairwise (fun a b => a.LastChar ≠ b.LastChar) := by
  haveI hTot : IsTotal Path (fun a b => b.TotalScore ≤ a.TotalScore) :=
    ⟨fun a b => le_total b.TotalScore a.TotalScore⟩
  haveI hTrans : IsTrans Path (fun a b => b.TotalScore ≤ a.TotalScore) :=
    ⟨fun _ _ _ hab hbc => le_trans hbc hab⟩
  have hperm := List.perm_insertionSort (fun a b : Path => b.TotalScore ≤ a.TotalScore) candidates
  have hsorted := List.sorted_insertionSort (fun a b : Path => b.TotalScore ≤ a.TotalScore) candidates
  unfold prunePaths
  rw [if_neg hne]
  dsimp only
  have hsne : candidates.insertionSort (fun a b => b.TotalScore ≤ a.TotalScore) ≠ [] := by
    intro hnil
    rw [hnil] at hperm
    exact hne (hperm.symm.eq_nil)
  obtain ⟨q, qs, hq⟩ := List.exists_cons_of_ne_nil hsne
  rw [hq]
  rw [hq] at hsorted
  simp only [List.headD_cons]
  obtain ⟨t, hsub, hres⟩ := pruneLoop_nil_start q qs
  have hressub : (q :: t).Sublist (q :: qs) := hsub.cons₂ q
  rw [hres]
  refine ⟨List.Pairwise.sublist hressub hsorted, ?_, ?_, ?_⟩
  · exact hres ▸ pruneLoop_length (q :: qs) [] [] q.TotalScore (by simp [MaxBeamWidth])
  · intro x hx
    have hsc := pruneLoop_score (q :: qs) [] [] q.TotalScore (by simp) x
      (by rw [hres]; exact hx)
    simp only [List.headD_cons]
    linarith
  · exact hres ▸ pruneLoop_dedup (q :: qs) [] [] q.TotalScore (by simp) List.Pairwise.nil

/-- C3: after every `Step` call that generates at least one candidate,
the surviving paths are in non-increasing order of `TotalScore`, their
number never exceeds the beam width `MaxBeamWidth = 20`, every
score of each survivor is within `PruneThreshold = 10` of the score of
the best (first) surviving path, and no two survivors share the same
`LastChar`. -/
theorem c3_step_beam_invariants (sq : ℚ → ℚ) (bd : BeamDecoder) (inputSignal : List ℚ)
    (hc : stepCandidates sq bd inputSignal ≠ []) :
    (step sq bd inputSignal).paths.Pairwise (fun a b => b.TotalScore ≤ a.TotalScore) ∧
      (step sq bd inputSignal).paths.length ≤ MaxBeamWidth ∧
      (∀ x ∈ (step sq bd inputSignal).paths,
        ((step sq bd inputSignal).paths.headD defaultPath).TotalScore - x.TotalScore
          ≤ PruneThreshold) ∧
      (step sq bd inputSignal).paths.Pairwise (fun a b => a.LastChar ≠ b.LastChar) := by
  have hstep : (step sq bd inputSignal).paths = prunePaths (stepCandidates sq bd inputSignal) := by
    unfold step
    rw [if_neg hc]
  rw [hstep]
  exact prunePaths_spec _ hc

/-- Witness for C3: stepping a fresh decoder with the single pulse `[1]`
generates candidates (at least `E`), so the invariants hold there. -/
theorem c3_step_beam_invariants_witness :
    (step sqrtQ bdW [1]).paths.Pairwise (fun a b => b.TotalScore ≤ a.TotalScore) ∧
      (step sqrtQ bdW [1]).paths.length ≤ MaxBeamWidth ∧
      (∀ x ∈ (step sqrtQ bdW [1]).paths,
        ((step sqrtQ bdW [1]).paths.headD defaultPath).TotalScore - x.TotalScore
          ≤ PruneThreshold) ∧
      (step sqrtQ bdW [1]).paths.Pairwise (fun a b => a.LastChar ≠ b.LastChar) := by
  have hstats : effectiveStats sqrtQ bdW = defaultStepStats := rfl
  have hemit : CalculateEmissionScoreAdvanced [1] [1] (effectiveStats sqrtQ bdW) = 0 := by
    rw [hstats]
    norm_num [CalculateEmissionScoreAdvanced, defaultStepStats]
  have hmem : (⟨"" ++ "E", "E", 0 + 0 + bdW.lm "" "E"⟩ : Path)
      ∈ stepCandidates sqrtQ bdW [1] := by
    unfold stepCandidates
    refine List.mem_flatMap.mpr ⟨{ Sentence := "", LastChar := "", TotalScore := 0 }, ?_, ?_⟩
    · simp [bdW, newBeamDecoder]
    · refine List.mem_filterMap.mpr ⟨⟨"E", [1]⟩, ?_, ?_⟩
      · simp [bdW, newBeamDecoder, Patterns]
      · dsimp only
        rw [hemit, if_neg (by norm_num)]
  exact c3_step_beam_invariants sqrtQ bdW [1] (List.ne_nil_of_mem hmem)

/-! ## C1 -/

theorem updateWPM1_fields (sq : ℚ → ℚ) (d : CWDecoder) (dur : ℚ) :
    (updateWPM1 sq d dur).glitchThresholdMs = d.glitchThresholdMs ∧
      (updateWPM1 sq d dur).updateAlpha = d.updateAlpha ∧
      (updateWPM1 sq d dur).pendingMarkDuration = d.pendingMarkDuration ∧
      (updateWPM1 sq d dur).lastGapDuration = d.lastGapDuration ∧
      (updateWPM1 sq d dur).charBuffer = d.charBuffer ∧
      (updateWPM1 sq d dur).beamDecoder = d.beamDecoder ∧
      (updateWPM1 sq d dur).pulseBuffer = d.pulseBuffer ∧
      (updateWPM1 sq d dur).pulseTags = d.pulseTags ∧
      (updateWPM1 sq d dur).markLog = d.markLog ∧
      (updateWPM1 sq d dur).popLog = d.popLog := by
  unfold updateWPM1 getThreshold
  dsimp only
  split_ifs <;>
    exact ⟨rfl, rfl, rfl, rfl, rfl, rfl, rfl, rfl, rfl, rfl⟩

theorem settleGap_preserves (sq : ℚ → ℚ) (d : CWDecoder) :
    (settleGap sq d).markLog = d.markLog ∧
      (settleGap sq d).unitTime = d.unitTime ∧
      (settleGap sq d).pendingMarkDuration = d.pendingMarkDuration ∧
      (settleGap sq d).popLog = d.popLog ∧
      (settleGap sq d).glitchThresholdMs = d.glitchThresholdMs ∧
      (settleGap sq d).lastGapDuration = d.lastGapDuration ∧
      (settleGap sq d).updateAlpha = d.updateAlpha := by
  unfold settleGap addCode
  dsimp only
  split_ifs <;>
    first
    | exact ⟨rfl, rfl, rfl, rfl, rfl, rfl, rfl⟩
    | · rename_i hf
        exact absurd hf (by simp)

theorem feedNew_off (sq : ℚ → ℚ) (d : CWDecoder) (g : ℚ) :
    (feedNew sq d g .StateOff).1 = { d with lastGapDuration := d.lastGapDuration + g } := rfl

theorem feedNew_on_clean (sq : ℚ → ℚ) (d : CWDecoder) (m : ℚ)
    (hp : d.pendingMarkDuration = 0) (hl : d.lastGapDuration = 0) (hu : 0 < d.unitTime) :
    (feedNew sq d m .StateOn).1 =
      { d with pendingMarkDuration := m, lastGapDuration := 0 } := by
  unfold feedNew
  rw [if_neg (by rw [hl]; simp)]
  dsimp only
  have hsp : settlePendingMark sq d = d := by
    unfold settlePendingMark
    rw [if_neg (by rw [hp]; simp)]
  have hsg : settleGap sq d = d := by
    unfold settleGap
    rw [hsp] at *
    rw [if_neg (by rw [hl]; exact not_lt.mpr (by positivity)), if_neg (by rw [hl]; simp)]
  rw [hsp, hsg]

theorem feedNew_on_glitch (sq : ℚ → ℚ) (d : CWDecoder) (m : ℚ)
    (hg : 0 < d.lastGapDuration) (hlt : d.lastGapDuration < d.glitchThresholdMs) :
    (feedNew sq d m .StateOn).1 =
      { d with pendingMarkDuration := d.pendingMarkDuration + d.lastGapDuration + m,
               lastGapDuration := 0 } := by
  unfold feedNew
  rw [if_pos ⟨hg, hlt⟩]

theorem feedNew_on_settle (sq : ℚ → ℚ) (d : CWDecoder) (m : ℚ)
    (hng : ¬ (0 < d.lastGapDuration ∧ d.lastGapDuration < d.glitchThresholdMs))
    (hreal : d.glitchThresholdMs < d.pendingMarkDuration)
    (hpos : 0 < d.pendingMarkDuration) :
    (feedNew sq d m .StateOn).1.unitTime = (updateWPM1 sq d d.pendingMarkDuration).unitTime ∧
      (feedNew sq d m .StateOn).1.markLog =
        d.markLog ++
          [d.pendingMarkDuration / (updateWPM1 sq d d.pendingMarkDuration).unitTime] := by
  have hsp : settlePendingMark sq d =
      addCode (updateWPM1 sq d d.pendingMarkDuration) d.pendingMarkDuration true := by
    unfold settlePendingMark
    rw [if_pos hpos, if_pos hreal]
    show addCode (updateWPM1 sq d d.pendingMarkDuration)
      (updateWPM1 sq d d.pendingMarkDuration).pendingMarkDuration true = _
    rw [(updateWPM1_fields sq d d.pendingMarkDuration).2.2.1]
  have hadd := updateWPM1_fields sq d d.pendingMarkDuration
  unfold feedNew
  rw [if_neg hng]
  dsimp only
  rw [hsp]
  have hgap := settleGap_preserves sq
    (addCode (updateWPM1 sq d d.pendingMarkDuration) d.pendingMarkDuration true)
  constructor
  · show (settleGap sq _).unitTime = _
    rw [hgap.2.1]
    rfl
  · show (settleGap sq _).markLog = _
    rw [hgap.1]
    show (updateWPM1 sq d d.pendingMarkDuration).markLog ++ _ = _
    rw [hadd.2.2.2.2.2.2.2.2.1]

/-- C1: a mark of total duration `m1 + g + m2` at least twice the
glitch threshold, interrupted by a single gap `g` below the glitch
threshold and delivered to `FeedNew` as mark `m1`, gap `g`, mark `m2`,
is merged into a single pending mark of the full duration; the three
events append nothing to the pulse buffer, and when the merged mark
settles (next mark event after a gap `G` at or above the threshold) the
buffer receives exactly one mark pulse, of value `(m1 + g + m2)` divided
by the unit time in effect after settlement - not three pulses. -/
theorem c1_glitch_stitch (sq : ℚ → ℚ) (d0 : CWDecoder) (m1 g m2 G m3 : ℚ)
    (hthr : 0 < d0.glitchThresholdMs) (hu : 0 < d0.unitTime)
    (hg0 : 0 < g) (hg : g < d0.glitchThresholdMs)
    (hT : 2 * d0.glitchThresholdMs ≤ m1 + g + m2)
    (hG : d0.glitchThresholdMs ≤ G)
    (hp : d0.pendingMarkDuration = 0) (hl : d0.lastGapDuration = 0) :
    (runCW sq d0 [(m1, .StateOn), (g, .StateOff), (m2, .StateOn)]).pendingMarkDuration
        = m1 + g + m2 ∧
      (runCW sq d0 [(m1, .StateOn), (g, .StateOff), (m2, .StateOn)]).pulseBuffer
        = d0.pulseBuffer ∧
      (runCW sq d0 [(m1, .StateOn), (g, .StateOff), (m2, .StateOn)]).markLog = d0.markLog ∧
      (runCW sq d0
          [(m1, .StateOn), (g, .StateOff), (m2, .StateOn), (G, .StateOff),
            (m3, .StateOn)]).markLog
        = d0.markLog ++
            [(m1 + g + m2) /
              (runCW sq d0
                [(m1, .StateOn), (g, .StateOff), (m2, .StateOn), (G, .StateOff),
                  (m3, .StateOn)]).unitTime] := by
  have hrun3 : runCW sq d0 [(m1, .StateOn), (g, .StateOff), (m2, .StateOn)]
      = { d0 with pendingMarkDuration := m1 + g + m2, lastGapDuration := 0 } := by
    show (feedNew sq (feedNew sq (feedNew sq d0 m1 .StateOn).1 g .StateOff).1 m2 .StateOn).1 = _
    rw [feedNew_on_clean sq d0 m1 hp hl hu, feedNew_off]
    dsimp only
    rw [feedNew_on_glitch sq _ m2 (by dsimp only; linarith) (by dsimp only; linarith)]
    dsimp only
    rw [show m1 + (0 + g) + m2 = m1 + g + m2 from by ring]
  have hsplit5 : runCW sq d0
      [(m1, .StateOn), (g, .StateOff), (m2, .StateOn), (G, .StateOff), (m3, .StateOn)]
      = runCW sq (runCW sq d0 [(m1, .StateOn), (g, .StateOff), (m2, .StateOn)])
          [(G, .StateOff), (m3, .StateOn)] := rfl
  refine ⟨by rw [hrun3], by rw [hrun3], by rw [hrun3], ?_⟩
  rw [hsplit5, hrun3]
  show (feedNew sq (feedNew sq _ G .StateOff).1 m3 .StateOn).1.markLog
    = d0.markLog ++
        [(m1 + g + m2) / (feedNew sq (feedNew sq _ G .StateOff).1 m3 .StateOn).1.unitTime]
  rw [feedNew_off]
  dsimp only
  have hset := feedNew_on_settle sq
    { d0 with pendingMarkDuration := m1 + g + m2, lastGapDuration := 0 + G } m3
    (by dsimp only; rintro ⟨h1, h2⟩; linarith)
    (by dsimp only; linarith)
    (by dsimp only; linarith)
  rw [hset.2, hset.1]

/-- Witness for C1: the broken-dash scenario at 20 WPM with glitch
threshold 15 ms: a 180 ms mark delivered as 100 ms + 10 ms gap +
70 ms. -/
theorem c1_glitch_stitch_witness :
    (runCW sqrtQ cwInitC [(100, .StateOn), (10, .StateOff), (70, .StateOn)]).pendingMarkDuration
        = 100 + 10 + 70 ∧
      (runCW sqrtQ cwInitC [(100, .StateOn), (10, .StateOff), (70, .StateOn)]).pulseBuffer
        = cwInitC.pulseBuffer ∧
      (runCW sqrtQ cwInitC [(100, .StateOn), (10, .StateOff), (70, .StateOn)]).markLog
        = cwInitC.markLog ∧
      (runCW sqrtQ cwInitC
          [(100, .StateOn), (10, .StateOff), (70, .StateOn), (20, .StateOff),
            (50, .StateOn)]).markLog
        = cwInitC.markLog ++
            [(100 + 10 + 70) /
              (runCW sqrtQ cwInitC
                [(100, .StateOn), (10, .StateOff), (70, .StateOn), (20, .StateOff),
                  (50, .StateOn)]).unitTime] :=
  c1_glitch_stitch sqrtQ cwInitC 100 10 70 20 50
    (by norm_num [cwInitC, newCWDecoder]) (by norm_num [cwInitC, newCWDecoder])
    (by norm_num) (by norm_num [cwInitC, newCWDecoder])
    (by norm_num [cwInitC, newCWDecoder]) (by norm_num [cwInitC, newCWDecoder])
    rfl rfl

/-! ## C10 -/

theorem tagsOf_succ (n : ℕ) :
    tagsOf (n + 1) = tagsOf n ++ [decide (n % 2 = 0)] := by
  unfold tagsOf
  rw [List.range_succ, List.map_append]
  rfl

theorem tagsOf_dropLast (n : ℕ) : (tagsOf (n + 1)).dropLast = tagsOf n := by
  rw [tagsOf_succ, List.dropLast_concat]

theorem tagsOf_getLastD (n : ℕ) : (tagsOf (n + 1)).getLastD false = decide (n % 2 = 0) := by
  rw [tagsOf_succ, List.getLastD_concat]

theorem getLastD_mem (l : List ℚ) (hne : l ≠ []) : l.getLastD 0 ∈ l := by
  rw [List.getLastD_eq_getLast?, List.getLast?_eq_getLast l hne]
  exact List.getLast_mem hne

theorem settlePendingMark_none (sq : ℚ → ℚ) (d : CWDecoder)
    (hp : ¬ 0 < d.pendingMarkDuration) : settlePendingMark sq d = d := by
  unfold settlePendingMark
  rw [if_neg hp]

theorem settlePendingMark_real (sq : ℚ → ℚ) (d : CWDecoder)
    (hp : 0 < d.pendingMarkDuration) (hreal : d.glitchThresholdMs < d.pendingMarkDuration) :
    settlePendingMark sq d =
      addCode (updateWPM1 sq d d.pendingMarkDuration) d.pendingMarkDuration true := by
  unfold settlePendingMark
  rw [if_pos hp, if_pos hreal]
  show addCode (updateWPM1 sq d d.pendingMarkDuration)
    (updateWPM1 sq d d.pendingMarkDuration).pendingMarkDuration true = _
  rw [(updateWPM1_fields sq d d.pendingMarkDuration).2.2.1]

theorem settlePendingMark_subglitch (sq : ℚ → ℚ) (d : CWDecoder)
    (hp : 0 < d.pendingMarkDuration) (hng : ¬ d.glitchThresholdMs < d.pendingMarkDuration)
    (hb : d.pulseBuffer ≠ []) :
    settlePendingMark sq d =
      { (delCode d).1 with lastGapDuration :=
          (delCode d).1.lastGapDuration + (delCode d).2 + (delCode d).1.pendingMarkDuration } := by
  unfold settlePendingMark
  rw [if_pos hp, if_neg hng, if_pos hb]

theorem settlePendingMark_subglitch_empty (sq : ℚ → ℚ) (d : CWDecoder)
    (hp : 0 < d.pendingMarkDuration) (hng : ¬ d.glitchThresholdMs < d.pendingMarkDuration)
    (hb : ¬ d.pulseBuffer ≠ []) :
    settlePendingMark sq d =
      { d with lastGapDuration := d.lastGapDuration + d.pendingMarkDuration } := by
  unfold settlePendingMark
  rw [if_pos hp, if_neg hng, if_neg hb]

theorem settleGap_odd (sq : ℚ → ℚ) (d : CWDecoder)
    (htags : d.pulseTags = tagsOf d.pulseBuffer.length)
    (hodd : d.pulseBuffer.length % 2 = 1)
    (hvals : ∀ v ∈ d.pulseBuffer, 0 ≤ v)
    (hlg : 0 < d.lastGapDuration) (hu : 0 < d.unitTime) :
    (settleGap sq d).pulseTags = tagsOf (settleGap sq d).pulseBuffer.length ∧
      (settleGap sq d).pulseBuffer.length % 2 = 0 ∧
      (∀ v ∈ (settleGap sq d).pulseBuffer, 0 ≤ v) ∧
      (settleGap sq d).popLog = d.popLog ∧
      (settleGap sq d).pendingMarkDuration = d.pendingMarkDuration ∧
      (settleGap sq d).unitTime = d.unitTime := by
  have hne : d.pulseBuffer ≠ [] := by
    intro h0
    rw [h0] at hodd
    simp at hodd
  by_cases hA : d.lastGapDuration > d.unitTime * (5/2)
  · -- character boundary: buffer handed to the beam decoder and cleared
    have e : (settleGap sq d).pulseBuffer = [] ∧ (settleGap sq d).pulseTags = [] ∧
        (settleGap sq d).popLog = d.popLog ∧
        (settleGap sq d).pendingMarkDuration = d.pendingMarkDuration ∧
        (settleGap sq d).unitTime = d.unitTime := by
      unfold settleGap
      rw [if_pos hA]
      dsimp only
      rw [if_pos hne, if_pos hne]
      exact ⟨rfl, rfl, rfl, rfl, rfl⟩
    exact ⟨by rw [e.1, e.2.1]; rfl, by rw [e.1]; rfl, by simp [e.1], e.2.2.1, e.2.2.2.1,
      e.2.2.2.2⟩
  · -- short positive gap appended to a non-empty buffer
    have e : settleGap sq d = addCode d d.lastGapDuration false := by
      unfold settleGap
      rw [if_neg hA, if_pos hlg, if_pos hne]
    rw [e]
    unfold addCode
    dsimp only
    refine ⟨?_, ?_, ?_, rfl, rfl, rfl⟩
    · rw [List.length_append, List.length_singleton, htags, tagsOf_succ]
      congr 1
      simp [hodd]
    · rw [List.length_append, List.length_singleton]
      omega
    · intro v hv
      rcases List.mem_append.mp hv with hv | hv
      · exact hvals v hv
      · rw [List.mem_singleton.mp hv]
        positivity

theorem settleGap_empty (sq : ℚ → ℚ) (d : CWDecoder)
    (hbuf : d.pulseBuffer = []) (htags : d.pulseTags = []) :
    (settleGap sq d).pulseBuffer = [] ∧ (settleGap sq d).pulseTags = [] ∧
      (settleGap sq d).popLog = d.popLog ∧
      (settleGap sq d).pendingMarkDuration = d.pendingMarkDuration ∧
      (settleGap sq d).unitTime = d.unitTime := by
  have hb : ¬ d.pulseBuffer ≠ [] := by simp [hbuf]
  by_cases hA : d.lastGapDuration > d.unitTime * (5/2)
  · unfold settleGap
    rw [if_pos hA]
    dsimp only
    rw [if_neg hb, if_neg hb]
    exact ⟨hbuf, htags, rfl, rfl, rfl⟩
  · by_cases hB : d.lastGapDuration > 0
    · have e : settleGap sq d = d := by
        unfold settleGap
        rw [if_neg hA, if_pos hB, if_neg hb]
      rw [e]
      exact ⟨hbuf, htags, rfl, rfl, rfl⟩
    · have e : settleGap sq d = d := by
        unfold settleGap
        rw [if_neg hA, if_neg hB]
      rw [e]
      exact ⟨hbuf, htags, rfl, rfl, rfl⟩

theorem addCode_mark_inv (d : CWDecoder) (dur : ℚ)
    (h1 : d.pulseTags = tagsOf d.pulseBuffer.length)
    (h2 : d.pulseBuffer.length % 2 = 0)
    (h3 : ∀ v ∈ d.pulseBuffer, 0 ≤ v) (hv : 0 ≤ dur / d.unitTime) :
    (addCode d dur true).pulseTags = tagsOf (addCode d dur true).pulseBuffer.length ∧
      (addCode d dur true).pulseBuffer.length % 2 = 1 ∧
      (∀ v ∈ (addCode d dur true).pulseBuffer, 0 ≤ v) := by
  unfold addCode
  dsimp only
  refine ⟨?_, ?_, ?_⟩
  · rw [List.length_append, List.length_singleton, tagsOf_succ, h1]
    congr 1
    simp [h2]
  · rw [List.length_append, List.length_singleton]
    omega
  · intro v hv2
    rcases List.mem_append.mp hv2 with h | h
    · exact h3 v h
    · rw [List.mem_singleton.mp h]
      exact hv

theorem bufInv_on (sq : ℚ → ℚ) (d : CWDecoder) (dur : ℚ)
    (hInv : BufInv d) (hd : 0 < dur)
    (hpre : 0 < d.lastGapDuration ∨ d.pendingMarkDuration = 0) :
    BufInv (feedNew sq d dur .StateOn).1 := by
  obtain ⟨h1, h2, h3, h4, h5, h6, h7, h8⟩ := hInv
  unfold feedNew
  dsimp only
  split_ifs with hglitch
  · -- sub-threshold gap: the event is merged into the pending mark
    have hpos : 0 < d.pendingMarkDuration + d.lastGapDuration + dur := by
      linarith [hglitch.1]
    exact ⟨h1, h2, h3, by dsimp only; linarith, le_refl 0, h6,
      fun hEq => absurd hEq (ne_of_gt hpos), h8⟩
  · by_cases hp0 : 0 < d.pendingMarkDuration
    · have hlg : 0 < d.lastGapDuration := hpre.resolve_right (ne_of_gt hp0)
      by_cases hreal : d.glitchThresholdMs < d.pendingMarkDuration
      · -- a real mark settles: one mark pulse is appended
        rw [settlePendingMark_real sq d hp0 hreal]
        have hwf := updateWPM1_fields sq d d.pendingMarkDuration
        have hw10 := updateWPM1_unitTime_ge sq d d.pendingMarkDuration
        obtain ⟨k1, k2, k3⟩ :=
          addCode_mark_inv (updateWPM1 sq d d.pendingMarkDuration) d.pendingMarkDuration
            (by rw [hwf.2.2.2.2.2.2.2.1, hwf.2.2.2.2.2.2.1, h1])
            (by rw [hwf.2.2.2.2.2.2.1]; exact h2)
            (by rw [hwf.2.2.2.2.2.2.1]; exact h3)
            (div_nonneg (le_of_lt hp0) (by linarith))
        have hlg1 : 0 <
            (addCode (updateWPM1 sq d d.pendingMarkDuration) d.pendingMarkDuration
              true).lastGapDuration := by
          show 0 < (updateWPM1 sq d d.pendingMarkDuration).lastGapDuration
          rw [hwf.2.2.2.1]
          exact hlg
        have hu1 : 0 <
            (addCode (updateWPM1 sq d d.pendingMarkDuration) d.pendingMarkDuration
              true).unitTime := by
          show 0 < (updateWPM1 sq d d.pendingMarkDuration).unitTime
          linarith
        obtain ⟨g1, g2, g3, g4, g5, g6⟩ := settleGap_odd sq _ k1 k2 k3 hlg1 hu1
        refine ⟨g1, g2, g3, le_of_lt hd, le_refl 0, ?_, fun hEq => absurd hEq (ne_of_gt hd), ?_⟩
        · show 0 < (settleGap sq _).unitTime
          rw [g6]
          exact hu1
        · intro t ht
          apply h8
          rw [show (settleGap sq _).popLog =
            (updateWPM1 sq d d.pendingMarkDuration).popLog from g4, hwf.2.2.2.2.2.2.2.2.2] at ht
          exact ht
      · by_cases hb : d.pulseBuffer ≠ []
        · -- sub-glitch pending mark discarded, last (gap) entry popped
          rw [settlePendingMark_subglitch sq d hp0 hreal hb]
          obtain ⟨n, hn⟩ : ∃ n, d.pulseBuffer.length = n + 1 :=
            ⟨d.pulseBuffer.length - 1, by
              have := List.length_pos.mpr hb
              omega⟩
          have hnodd : n % 2 = 1 := by omega
          have hval0 : 0 ≤ d.pulseBuffer.getLastD 0 := h3 _ (getLastD_mem d.pulseBuffer hb)
          have htags1 : (delCode d).1.pulseTags = tagsOf (delCode d).1.pulseBuffer.length := by
            show d.pulseTags.dropLast = tagsOf d.pulseBuffer.dropLast.length
            rw [List.length_dropLast, hn, h1, hn]
            exact tagsOf_dropLast n
          have hodd1 : (delCode d).1.pulseBuffer.length % 2 = 1 := by
            show d.pulseBuffer.dropLast.length % 2 = 1
            rw [List.length_dropLast, hn]
            omega
          have hvals1 : ∀ v ∈ (delCode d).1.pulseBuffer, 0 ≤ v := by
            intro v hv
            exact h3 v ((List.dropLast_sublist d.pulseBuffer).subset hv)
          have hlg1 : 0 < ((delCode d).1.lastGapDuration + (delCode d).2
              + (delCode d).1.pendingMarkDuration) := by
            show 0 < d.lastGapDuration + d.pulseBuffer.getLastD 0 * d.unitTime
              + d.pendingMarkDuration
            have : 0 ≤ d.pulseBuffer.getLastD 0 * d.unitTime :=
              mul_nonneg hval0 (le_of_lt h6)
            linarith
          obtain ⟨g1, g2, g3, g4, g5, g6⟩ := settleGap_odd sq
            { (delCode d).1 with lastGapDuration := (delCode d).1.lastGapDuration
                + (delCode d).2 + (delCode d).1.pendingMarkDuration }
            htags1 hodd1 hvals1 hlg1 h6
          refine ⟨g1, g2, g3, le_of_lt hd, le_refl 0, ?_,
            fun hEq => absurd hEq (ne_of_gt hd), ?_⟩
          · show 0 < (settleGap sq _).unitTime
            rw [g6]
            exact h6
          · intro t ht
            rw [show (settleGap sq _).popLog = (delCode d).1.popLog from g4] at ht
            have ht2 : t ∈ d.popLog ++ [d.pulseTags.getLastD false] := ht
            rcases List.mem_append.mp ht2 with h | h
            · exact h8 t h
            · rw [List.mem_singleton.mp h, h1, hn, tagsOf_getLastD]
              simp [hnodd]
        · -- sub-glitch pending mark with an empty buffer
          rw [settlePendingMark_subglitch_empty sq d hp0 hreal hb]
          have hbuf : d.pulseBuffer = [] := not_not.mp (by simpa using hb)
          have htags0 : d.pulseTags = [] := by
            rw [h1, hbuf]
            rfl
          obtain ⟨g1, g2, g3, g4, g5⟩ := settleGap_empty sq
            { d with lastGapDuration := d.lastGapDuration + d.pendingMarkDuration } hbuf htags0
          refine ⟨?_, ?_, ?_, le_of_lt hd, le_refl 0, ?_,
            fun _ => by show (settleGap sq _).pulseBuffer = []; exact g1, ?_⟩
          · show (settleGap sq _).pulseTags = tagsOf (settleGap sq _).pulseBuffer.length
            rw [g1, g2]
            rfl
          · show (settleGap sq _).pulseBuffer.length % 2 = 0
            rw [g1]
            rfl
          · intro v hv
            rw [show (settleGap sq _).pulseBuffer = [] from g1] at hv
            simp at hv
          · show 0 < (settleGap sq _).unitTime
            rw [g5]
            exact h6
          · intro t ht
            rw [show (settleGap sq _).popLog = d.popLog from g3] at ht
            exact h8 t ht
    · -- no pending mark yet: the buffer is still empty
      rw [settlePendingMark_none sq d hp0]
      have hp00 : d.pendingMarkDuration = 0 := le_antisymm (not_lt.mp hp0) h4
      have hbuf : d.pulseBuffer = [] := h7 hp00
      have htags0 : d.pulseTags = [] := by
        rw [h1, hbuf]
        rfl
      obtain ⟨g1, g2, g3, g4, g5⟩ := settleGap_empty sq d hbuf htags0
      refine ⟨?_, ?_, ?_, le_of_lt hd, le_refl 0, ?_,
        fun _ => by show (settleGap sq d).pulseBuffer = []; exact g1, ?_⟩
      · show (settleGap sq d).pulseTags = tagsOf (settleGap sq d).pulseBuffer.length
        rw [g1, g2]
        rfl
      · show (settleGap sq d).pulseBuffer.length % 2 = 0
        rw [g1]
        rfl
      · intro v hv
        rw [show (settleGap sq d).pulseBuffer = [] from g1] at hv
        simp at hv
      · show 0 < (settleGap sq d).unitTime
        rw [g5]
        exact h6
      · intro t ht
        rw [show (settleGap sq d).popLog = d.popLog from g3] at ht
        exact h8 t ht

theorem bufInv_off (sq : ℚ → ℚ) (d : CWDecoder) (dur : ℚ)
    (hInv : BufInv d) (hd : 0 < dur) :
    BufInv (feedNew sq d dur .StateOff).1 ∧
      0 < (feedNew sq d dur .StateOff).1.lastGapDuration := by
  obtain ⟨h1, h2, h3, h4, h5, h6, h7, h8⟩ := hInv
  refine ⟨⟨h1, h2, h3, h4, ?_, h6, h7, h8⟩, ?_⟩
  · show 0 ≤ d.lastGapDuration + dur
    linarith
  · show 0 < d.lastGapDuration + dur
    linarith

theorem runCW_bufInv (sq : ℚ → ℚ) (evs : List (ℚ × SignalState)) :
    ∀ (prev : Option SignalState) (d : CWDecoder), BufInv d → PrevOk prev d →
      altOk prev evs = true → BufInv (runCW sq d evs) := by
  induction evs with
  | nil => exact fun _ _ hInv _ _ => hInv
  | cons e rest ih =>
    intro prev d hInv hprev halt
    obtain ⟨dur, s⟩ := e
    show BufInv (runCW sq (feedNew sq d dur s).1 rest)
    cases prev with
    | none =>
      simp only [altOk, Bool.and_eq_true, decide_eq_true_eq] at halt
      obtain ⟨hd, hrest⟩ := halt
      obtain ⟨hp, _⟩ := hprev
      cases s with
      | StateOn =>
        exact ih (some .StateOn) _ (bufInv_on sq d dur hInv hd (Or.inr hp)) trivial hrest
      | StateOff =>
        exact ih (some .StateOff) _ (bufInv_off sq d dur hInv hd).1
          (bufInv_off sq d dur hInv hd).2 hrest
    | some p =>
      simp only [altOk, Bool.and_eq_true, decide_eq_true_eq] at halt
      obtain ⟨⟨hd, hne⟩, hrest⟩ := halt
      cases s with
      | StateOn =>
        have hpre : 0 < d.lastGapDuration ∨ d.pendingMarkDuration = 0 := by
          cases p with
          | StateOn => exact absurd rfl hne
          | StateOff => exact Or.inl hprev
        exact ih (some .StateOn) _ (bufInv_on sq d dur hInv hd hpre) trivial hrest
      | StateOff =>
        exact ih (some .StateOff) _ (bufInv_off sq d dur hInv hd).1
          (bufInv_off sq d dur hInv hd).2 hrest

/-- C10 (amended): over any call sequence as the Schmitt trigger
delivers it - every duration positive and consecutive events of
alternating state - starting from a state with no pending mark, no
accumulated gap, and a well-formed buffer (such as the freshly
constructed decoder), the pulse buffer always alternates mark and gap
entries beginning with a mark (even 0-based indices hold marks, odd
indices hold gaps), and every entry popped by `delCode` when a
sub-glitch-threshold pending mark is discarded is a gap entry, never a
mark.  (For arbitrary, non-alternating call sequences the property
fails; see the counterexample.) -/
theorem c10_alternation_amended (sq : ℚ → ℚ) (d0 : CWDecoder)
    (evs : List (ℚ × SignalState)) (hInv : BufInv d0)
    (hp : d0.pendingMarkDuration = 0) (hl : d0.lastGapDuration = 0)
    (halt : altOk none evs = true) :
    (runCW sq d0 evs).pulseTags = tagsOf (runCW sq d0 evs).pulseBuffer.length ∧
      (∀ t ∈ (runCW sq d0 evs).popLog, t = false) ∧
      BufInv (runCW sq d0 evs) := by
  have h := runCW_bufInv sq evs none d0 hInv ⟨hp, hl⟩ halt
  obtain ⟨k1, k2, k3, k4, k5, k6, k7, k8⟩ := h
  exact ⟨k1, k8, k1, k2, k3, k4, k5, k6, k7, k8⟩

/-- Witness for the amended C10 on a concrete alternating run. -/
theorem c10_alternation_witness :
    (runCW sqrtQ cwInitC
          [(50, .StateOff), (100, .StateOn), (30, .StateOff), (180, .StateOn)]).pulseTags
        = tagsOf (runCW sqrtQ cwInitC
          [(50, .StateOff), (100, .StateOn), (30, .StateOff), (180, .StateOn)]).pulseBuffer.length ∧
      (∀ t ∈ (runCW sqrtQ cwInitC
          [(50, .StateOff), (100, .StateOn), (30, .StateOff), (180, .StateOn)]).popLog,
        t = false) ∧
      BufInv (runCW sqrtQ cwInitC
        [(50, .StateOff), (100, .StateOn), (30, .StateOff), (180, .StateOn)]) :=
  c10_alternation_amended sqrtQ cwInitC
    [(50, .StateOff), (100, .StateOn), (30, .StateOff), (180, .StateOn)]
    ⟨rfl, rfl, by simp [cwInitC, newCWDecoder], le_refl 0, le_refl 0,
      by norm_num [cwInitC, newCWDecoder], fun _ => rfl, by simp [cwInitC, newCWDecoder]⟩
    rfl rfl (by norm_num [altOk]; exact ⟨by decide, by decide, by decide⟩)

set_option maxHeartbeats 2000000 in
theorem c10_cex_tags_eval :
    (runCW sqrtQ cwInitC
        [(100, .StateOn), (100, .StateOn), (100, .StateOff), (100, .StateOn)]).pulseTags
      = [true, true, false] := by
  norm_num [runCW, feedNew, settlePendingMark, settleGap, updateWPM1, wpmPreClamp,
    getThreshold, addObservation, analyze, analyzeCore, analyzeSplit, maxGapScan,
    invalidStats, addCode, delCode, cwInitC, newCWDecoder, newAnalyzer, sortQ,
    List.insertionSort, List.orderedInsert, List.replicate, getResult, newBeamDecoder,
    List.range']
  rw [if_neg (by simp)]

set_option maxHeartbeats 2000000 in
theorem c10_cex_buffer_eval :
    (runCW sqrtQ cwInitC
        [(100, .StateOn), (100, .StateOn), (100, .StateOff), (100, .StateOn)]).pulseBuffer
      = [5/3, 5/3, 5/3] := by
  norm_num [runCW, feedNew, settlePendingMark, settleGap, updateWPM1, wpmPreClamp,
    getThreshold, addObservation, analyze, analyzeCore, analyzeSplit, maxGapScan,
    invalidStats, addCode, delCode, cwInitC, newCWDecoder, newAnalyzer, sortQ,
    List.insertionSort, List.orderedInsert, List.replicate, getResult, newBeamDecoder,
    List.range']
  rw [if_neg (by simp)]

/-- C10 counterexample: from the initial state, the call sequence mark,
mark, gap, mark (durations 100 ms each, against a 15 ms glitch
threshold) leaves the pulse buffer `[5/3, 5/3, 5/3]` whose entries were
appended as mark, mark, gap: the entry at odd index 1 holds a mark
duration, so the pulse buffer does not alternate mark and gap entries
throughout every sequence of `FeedNew` calls from the initial state -
only for sequences with alternating states, as the Schmitt trigger
produces them. -/
theorem c10_alternation_cex :
    (runCW sqrtQ cwInitC
        [(100, .StateOn), (100, .StateOn), (100, .StateOff), (100, .StateOn)]).pulseTags
      = [true, true, false] ∧
      ¬ ((runCW sqrtQ cwInitC
          [(100, .StateOn), (100, .StateOn), (100, .StateOff), (100, .StateOn)]).pulseTags
        = tagsOf (runCW sqrtQ cwInitC
          [(100, .StateOn), (100, .StateOn), (100, .StateOff),
            (100, .StateOn)]).pulseBuffer.length) := by
  refine ⟨c10_cex_tags_eval, ?_⟩
  rw [c10_cex_tags_eval, c10_cex_buffer_eval]
  decide

end CW
